import Mathlib

/-!
Verification of the SQL-agent service in `main.py`: a Flask endpoint `POST /agent`
that seeds a conversation history with the user prompt and then runs an
orchestration loop which repeatedly invokes a generative model, classifies the
response, dispatches `execute_sql_query` tool calls against a database, folds the
tool results back into the history, and returns the final text answer.

The model capability and the database driver are the two external collaborators;
following the design document they are embedded as function parameters
(`Generate` and `Db`).  Everything else — the JSON serialization performed by
`json.dumps(rows, cls=DecimalEncoder)`, the `json.loads` call in the dispatch
branch, the history bookkeeping and the loop itself — is embedded concretely,
translated from `main.py`.
-/

namespace SqlAgent

/-- One scalar value of a result row as produced by the database driver:
a text value (`VARCHAR`), a Python `int` (`INT`), a Python `Decimal`
(`NUMERIC`/`DECIMAL`, carried by its exact textual representation `str(Decimal)`,
so no precision is lost in the embedding), or SQL `NULL` (Python `None`). -/
inductive Scalar where
  | s (v : String)
  | i (n : Int)
  | d (v : String)
  | null
  deriving DecidableEq

/-- One result row: `dict(row._mapping)` in `main.py` line 47, a mapping from
column name to scalar value, in column order. -/
abbrev Row := List (String × Scalar)

/-- The database driver behind `engine.connect()` / `conn.execute`: it either
returns a row-set or raises, which the embedding represents as `Except`. -/
abbrev Db := String → Except String (List Row)

/-- The decimal digit characters, used by the embedding of `json.dumps` for
integer values. -/
def digitChar : Nat → Char
  | 0 => '0'
  | 1 => '1'
  | 2 => '2'
  | 3 => '3'
  | 4 => '4'
  | 5 => '5'
  | 6 => '6'
  | 7 => '7'
  | 8 => '8'
  | _ => '9'

/-- Numeric value of a digit character. -/
def digitVal (c : Char) : Nat := c.toNat - 48

/-- The digits of `n` in base 10, least significant first; `fuel` bounds the
recursion depth and any value above `n` is enough. -/
def natRevDigitsAux : Nat → Nat → List Char
  | 0, _ => []
  | fuel + 1, n =>
    if n < 10 then [digitChar n] else digitChar (n % 10) :: natRevDigitsAux fuel (n / 10)

/-- The digits of `n` in base 10, least significant first. -/
def natRevDigits (n : Nat) : List Char := natRevDigitsAux (n + 1) n

/-- Decimal rendering of a natural number, as Python `str` does. -/
def renderNat (n : Nat) : List Char := (natRevDigits n).reverse

/-- Decimal rendering of an integer, as Python `str` / `json.dumps` do. -/
def renderInt (n : Int) : List Char :=
  if n < 0 then '-' :: renderNat n.natAbs else renderNat n.natAbs

/-- JSON string escaping of one character (the escapes `json.dumps` produces on
the characters that require them; other characters are emitted verbatim). -/
def escapeChar (c : Char) : List Char :=
  if c = '\"' then ['\\', '\"'] else if c = '\\' then ['\\', '\\'] else [c]

/-- JSON rendering of a string value, quoted and escaped, as `json.dumps`. -/
def renderString (v : String) : List Char :=
  '\"' :: (v.data.map escapeChar).flatten ++ ['\"']

/-- JSON rendering of one scalar by `json.dumps(..., cls=DecimalEncoder)`:
strings are quoted, `int` values are rendered as JSON numbers, and a `Decimal`
is first converted by `DecimalEncoder.default` (`main.py` lines 35-39) to
`str(obj)` and therefore rendered as a JSON string; `None` renders as `null`. -/
def renderScalar : Scalar → List Char
  | Scalar.s v => renderString v
  | Scalar.i n => renderInt n
  | Scalar.d v => renderString v
  | Scalar.null => ['n', 'u', 'l', 'l']

/-- JSON rendering of one `name: value` member of a row object, with the
default `json.dumps` key separator `: `. -/
def renderPair (kv : String × Scalar) : List Char :=
  renderString kv.1 ++ ':' :: ' ' :: renderScalar kv.2

/-- Remaining members of a row object, each preceded by the default `json.dumps`
item separator `, `. -/
def renderRowTail : Row → List Char
  | [] => []
  | kv :: rest => ',' :: ' ' :: renderPair kv ++ renderRowTail rest

/-- The members of a row object, separated by `, `. -/
def renderRowBody : Row → List Char
  | [] => []
  | kv :: rest => renderPair kv ++ renderRowTail rest

/-- JSON rendering of one row as an object. -/
def renderRow (r : Row) : List Char :=
  '\x7b' :: renderRowBody r ++ ['\x7d']

/-- Remaining rows of the row-set array, each preceded by `, `. -/
def renderRowsTail : List Row → List Char
  | [] => []
  | r :: rest => ',' :: ' ' :: renderRow r ++ renderRowsTail rest

/-- The elements of the row-set array, separated by `, `. -/
def renderRowsBody : List Row → List Char
  | [] => []
  | r :: rest => renderRow r ++ renderRowsTail rest

/-- `json.dumps(rows, cls=DecimalEncoder)` on the list of row dicts
(`main.py` line 48). -/
def renderRows (rows : List Row) : List Char :=
  '[' :: renderRowsBody rows ++ [']']

/-- `execute_sql_query` (`main.py` lines 41-51): runs the query through the
driver; on success returns the row-set serialized to a JSON string with
`DecimalEncoder`, on any driver exception returns the string
`Error executing query: ` followed by the driver message.  It is a total
function: no failure escapes it. -/
def execute_sql_query (db : Db) (query : String) : String :=
  match db query with
  | Except.ok rows => String.mk (renderRows rows)
  | Except.error e => "Error executing query: " ++ e

/-- The value `json.loads` hands back for one serialized scalar: a `Decimal`
was serialized as a JSON string, so it comes back as the plain string with the
same text; everything else comes back unchanged. -/
def stringifyScalar : Scalar → Scalar
  | Scalar.d v => Scalar.s v
  | x => x

/-- The value `json.loads` hands back for one serialized row. -/
def stringifyRow (r : Row) : Row :=
  r.map fun kv => (kv.1, stringifyScalar kv.2)

/-- The value `json.loads` hands back for the serialized row-set. -/
def stringifyRows (rows : List Row) : List Row :=
  rows.map stringifyRow

/-! ### The embedding of `json.loads` on tool output

`json.loads` in the dispatch branch (`main.py` line 117) is only ever applied to
the two shapes `execute_sql_query` produces: the `json.dumps` serialization of a
row-set, or an error string beginning with `Error executing query: `.  The
parser below is a concrete recursive-descent parser for exactly the grammar the
serializer emits (arrays of flat objects with string / integer / null values);
it accepts the serializer output, recovering the parsed value, and rejects every
string whose first character cannot begin a JSON document, which covers all
error strings. -/

/-- Consume an expected literal sequence of characters. -/
def parseLit : List Char → List Char → Option (List Char)
  | [], cs => some cs
  | _ :: _, [] => none
  | l :: ls, c :: cs => if c = l then parseLit ls cs else none

/-- Parse the body of a JSON string after the opening quote, undoing the
escapes the serializer produces, up to the closing quote. -/
def parseStringBody : List Char → Option (List Char × List Char)
  | [] => none
  | c :: cs =>
    if c = '\"' then some ([], cs)
    else if c = '\\' then
      match cs with
      | [] => none
      | e :: cs2 =>
        if e = '\"' || e = '\\' then
          match parseStringBody cs2 with
          | none => none
          | some (out, rest) => some (e :: out, rest)
        else none
    else
      match parseStringBody cs with
      | none => none
      | some (out, rest) => some (c :: out, rest)

/-- Consume a maximal run of digit characters, accumulating their value. -/
def parseDigitsAux : List Char → Nat → Nat × List Char
  | [], acc => (acc, [])
  | c :: cs, acc =>
    if c.isDigit then parseDigitsAux cs (acc * 10 + digitVal c) else (acc, c :: cs)

/-- Parse a JSON integer (optional minus sign, then at least one digit). -/
def parseNum : List Char → Option (Int × List Char)
  | [] => none
  | c :: cs =>
    if c = '-' then
      match cs with
      | [] => none
      | d :: _ =>
        if d.isDigit then
          let p := parseDigitsAux cs 0
          some (-(p.1 : Int), p.2)
        else none
    else if c.isDigit then
      let p := parseDigitsAux (c :: cs) 0
      some ((p.1 : Int), p.2)
    else none

/-- Parse one scalar value: a string, `null`, or an integer. -/
def parseScalar (cs : List Char) : Option (Scalar × List Char) :=
  match cs with
  | [] => none
  | c :: cs1 =>
    if c = '\"' then
      match parseStringBody cs1 with
      | none => none
      | some (out, rest) => some (Scalar.s (String.mk out), rest)
    else if c = 'n' then
      match parseLit ['u', 'l', 'l'] cs1 with
      | none => none
      | some rest => some (Scalar.null, rest)
    else
      match parseNum (c :: cs1) with
      | none => none
      | some (n, rest) => some (Scalar.i n, rest)

/-- Parse one `"name": value` member of a row object. -/
def parsePair (cs : List Char) : Option ((String × Scalar) × List Char) :=
  match cs with
  | [] => none
  | c :: cs1 =>
    if c = '\"' then
      match parseStringBody cs1 with
      | none => none
      | some (key, cs2) =>
        match cs2 with
        | ':' :: ' ' :: cs3 =>
          match parseScalar cs3 with
          | none => none
          | some (v, rest) => some ((String.mk key, v), rest)
        | _ => none
    else none

/-- Parse the members of a row object after the first one: either the closing
brace, or `, ` followed by another member.  `fuel` bounds the number of
members and is instantiated with the input length at the top level. -/
def parsePairsRest : Nat → List Char → Option (Row × List Char)
  | _, [] => none
  | fuel, c :: cs1 =>
    if c = '\x7d' then some ([], cs1)
    else if c = ',' then
      match fuel, cs1 with
      | f2 + 1, ' ' :: cs2 =>
        match parsePair cs2 with
        | none => none
        | some (p, cs3) =>
          match parsePairsRest f2 cs3 with
          | none => none
          | some (ps, rest) => some (p :: ps, rest)
      | _, _ => none
    else none

/-- Parse one row object. -/
def parseObj (fuel : Nat) (cs : List Char) : Option (Row × List Char) :=
  match cs with
  | [] => none
  | c :: cs1 =>
    if c = '\x7b' then
      match cs1 with
      | [] => none
      | c2 :: cs2 =>
        if c2 = '\x7d' then some ([], cs2)
        else
          match parsePair cs1 with
          | none => none
          | some (p, cs3) =>
            match parsePairsRest fuel cs3 with
            | none => none
            | some (ps, rest) => some (p :: ps, rest)
    else none

/-- Parse the elements of the row-set array after the first one: either the
closing bracket, or `, ` followed by another object. -/
def parseObjsRest (fp : Nat) : Nat → List Char → Option (List Row × List Char)
  | _, [] => none
  | fuel, c :: cs1 =>
    if c = ']' then some ([], cs1)
    else if c = ',' then
      match fuel, cs1 with
      | f2 + 1, ' ' :: cs2 =>
        match parseObj fp cs2 with
        | none => none
        | some (r, cs3) =>
          match parseObjsRest fp f2 cs3 with
          | none => none
          | some (rs, rest) => some (r :: rs, rest)
      | _, _ => none
    else none

/-- The embedding of `json.loads(tool_output)` (`main.py` line 117): parse the
whole input as a JSON array of row objects; `none` models the
`json.JSONDecodeError` branch. -/
def json_loads_rows (s : String) : Option (List Row) :=
  match s.data with
  | [] => none
  | c :: cs =>
    if c = '[' then
      match cs with
      | [] => none
      | c2 :: cs2 =>
        if c2 = ']' then (if cs2 = [] then some [] else none)
        else
          match parseObj s.data.length cs with
          | none => none
          | some (r, cs3) =>
            match parseObjsRest s.data.length s.data.length cs3 with
            | some (rs, []) => some (r :: rs)
            | _ => none
    else none

/-! ### The conversation data model and the orchestration loop -/

/-- A tool call emitted by the model: `part.function_call` with its `name`
and `args` mapping. -/
structure FunctionCall where
  name : String
  args : List (String × String)
  deriving DecidableEq

/-- The `response` payload of a `Part.from_function_response` built by the
loop: `resultRows` models `(result: <parsed JSON row-set>)` from a successful
parse (`main.py` line 118), `resultText` models `(result: <raw string>)` when
the tool output was not valid JSON (`main.py` line 121), and `errorMsg` models
the structured error `(error: Tool <name> not found.)` for an unknown tool
(`main.py` line 132). -/
inductive RespData where
  | resultRows (rows : List Row)
  | resultText (s : String)
  | errorMsg (s : String)
  deriving DecidableEq

/-- One content part of a turn: text, a tool call (`function_call`), or a tool
result (`function_response`). -/
inductive Part where
  | text (t : String)
  | functionCall (fc : FunctionCall)
  | functionResponse (name : String) (response : RespData)
  deriving DecidableEq

/-- Whether a part carries a function call — the truthiness test
`part.function_call` used in `main.py` lines 96 and 106. -/
def Part.isFunctionCall : Part → Bool
  | Part.functionCall _ => true
  | _ => false

/-- `candidate.content`: one model turn, an ordered list of parts. -/
structure Content where
  parts : List Part
  deriving DecidableEq

/-- `candidate.text`: the concatenated text of the text parts of the turn. -/
def Content.text (c : Content) : String :=
  c.parts.foldl (fun acc p => match p with | Part.text t => acc ++ t | _ => acc) ""

/-- One element of the `history` list in `main.py`: the seed user `Part`, a
whole model `Content`, or an individual function-response `Part` added by
`history.extend(function_response_parts)`. -/
inductive HistoryItem where
  | part (p : Part)
  | content (c : Content)
  deriving DecidableEq

/-- The model capability, `model.generate_content` (`main.py` line 87): takes
the full history and returns the single candidate turn, or raises. -/
abbrev Generate := List HistoryItem → Except String Content

/-- Observable events of one request, in order: each model invocation (with the
exact history passed to it) and each executed SQL query (the query text logged
by `app.logger.info` in `main.py` line 45 just before execution). -/
inductive Event where
  | modelCall (history : List HistoryItem)
  | toolExec (query : String)
  deriving DecidableEq

/-- The outcome of one request to the endpoint. `looping h` means the loop was
still running, with accumulated history `h`, after the given number of
iterations — `while True` in `main.py` line 85 has no bound of its own. -/
inductive AgentResult where
  | success (text : String)
  | emptyPrompt
  | internalError (msg : String)
  | looping (history : List HistoryItem)
  deriving DecidableEq

/-- Whether the loop was still running when the iteration budget of the
embedding ran out. -/
def AgentResult.isLooping : AgentResult → Bool
  | AgentResult.looping _ => true
  | _ => false

/-- The classification in `main.py` line 96: the response is final when it has
no parts or its first part is not a function call. -/
def isFinalResponse (c : Content) : Bool :=
  match c.parts with
  | [] => true
  | p :: _ => !(Part.isFunctionCall p)

/-- `function_call.args.get("query", "")` (`main.py` line 112): the `query`
argument, defaulting to the empty string when absent. -/
def queryArg (fc : FunctionCall) : String :=
  (fc.args.lookup "query").getD ""

/-- The `try: json.loads ... except` block (`main.py` lines 115-121): parse the
tool output as JSON for the response payload, falling back to the raw string. -/
def parseOrRaw (tool_output : String) : RespData :=
  match json_loads_rows tool_output with
  | some parsed => RespData.resultRows parsed
  | none => RespData.resultText tool_output

/-- One step of the dispatch loop body (`main.py` lines 105-133) on a single
part: a known tool call executes the query and wraps the parse-or-raw output,
an unknown tool call gets the structured error and touches nothing else, and a
part that is not a function call is skipped.  The second component records the
queries actually given to `execute_sql_query`. -/
def handlePartTr (db : Db) (p : Part) : List Part × List String :=
  match p with
  | Part.functionCall fc =>
    if fc.name = "execute_sql_query" then
      ([Part.functionResponse fc.name (parseOrRaw (execute_sql_query db (queryArg fc)))],
        [queryArg fc])
    else
      ([Part.functionResponse fc.name
          (RespData.errorMsg ("Tool \x27" ++ fc.name ++ "\x27 not found."))], [])
  | _ => ([], [])

/-- The whole `for part in candidate.content.parts` loop (`main.py` lines
102-133): the collected `function_response_parts` in order, together with the
executed queries in order. -/
def processFunctionCallsTr (db : Db) : List Part → List Part × List String
  | [] => ([], [])
  | p :: rest =>
    let r := handlePartTr db p
    let rs := processFunctionCallsTr db rest
    (r.1 ++ rs.1, r.2 ++ rs.2)

/-- The orchestration loop (`main.py` lines 85-139), instrumented with the
event trace.  One unit of `fuel` is one loop iteration, i.e. one model
invocation; the source loop is `while True`, so the embedding returns
`looping` when the iteration budget runs out with the loop still going. -/
def agentLoopTr (gen : Generate) (db : Db) : Nat → List HistoryItem → AgentResult × List Event
  | 0, history => (AgentResult.looping history, [])
  | fuel + 1, history =>
    match gen history with
    | Except.error e => (AgentResult.internalError e, [Event.modelCall history])
    | Except.ok c =>
      if isFinalResponse c then
        (AgentResult.success (Content.text c), [Event.modelCall history])
      else
        let pr := processFunctionCallsTr db c.parts
        let next := agentLoopTr gen db fuel
          ((history ++ [HistoryItem.content c]) ++ pr.1.map HistoryItem.part)
        (next.1, Event.modelCall history :: (pr.2.map Event.toolExec ++ next.2))

/-- The endpoint body (`main.py` lines 75-98): validate the prompt
(`if not user_prompt`, i.e. it is missing or empty), seed the history with one
user text part, and enter the loop. -/
def agentTr (gen : Generate) (db : Db) (fuel : Nat) (prompt : Option String) :
    AgentResult × List Event :=
  match prompt with
  | none => (AgentResult.emptyPrompt, [])
  | some p =>
    if p = "" then (AgentResult.emptyPrompt, [])
    else agentLoopTr gen db fuel [HistoryItem.part (Part.text p)]

/-- The HTTP status code and JSON object body the endpoint produces for each
outcome (`main.py` lines 80, 98, 143); `looping` corresponds to no response
ever being sent. -/
def httpResponse : AgentResult → Option (Nat × List (String × String))
  | AgentResult.success t => some (200, [("response", t)])
  | AgentResult.emptyPrompt => some (400, [("error", "Prompt must not be empty.")])
  | AgentResult.internalError e =>
      some (500, [("error", "An internal error occurred. " ++ e)])
  | AgentResult.looping _ => none

/-- Extract the function call of a part, if any. -/
def partFunctionCall : Part → Option FunctionCall
  | Part.functionCall fc => some fc
  | _ => none

/-- The tool calls of a turn, in order. -/
def fcParts (ps : List Part) : List FunctionCall :=
  ps.filterMap partFunctionCall

/-- The single function-response part the dispatch builds for one tool call. -/
def respOf (db : Db) (fc : FunctionCall) : Part :=
  if fc.name = "execute_sql_query" then
    Part.functionResponse fc.name (parseOrRaw (execute_sql_query db (queryArg fc)))
  else
    Part.functionResponse fc.name
      (RespData.errorMsg ("Tool \x27" ++ fc.name ++ "\x27 not found."))

/-- The queries the dispatch executes for one tool call. -/
def queriesOf (fc : FunctionCall) : List String :=
  if fc.name = "execute_sql_query" then [queryArg fc] else []

/-- Number of model invocations recorded in a trace. -/
def countModelCalls : List Event → Nat
  | [] => 0
  | Event.modelCall _ :: es => countModelCalls es + 1
  | Event.toolExec _ :: es => countModelCalls es

/-! ### Concrete collaborators used by witnesses and counterexamples -/

/-- A model that answers every invocation with a single tool call for a tool
name that is not registered. -/
def genToolLoop : Generate :=
  fun _ => Except.ok ⟨[Part.functionCall ⟨"lookup_tool", []⟩]⟩

/-- A database whose connection always fails. -/
def dbEmpty : Db := fun _ => Except.error "connection refused"

/-- A model that returns a text part followed by a trailing tool call. -/
def genTextFirst : Generate :=
  fun _ => Except.ok ⟨[Part.text "hello",
    Part.functionCall ⟨"execute_sql_query", [("query", "SELECT 1")]⟩]⟩

/-- A model that raises on every invocation. -/
def genRaise : Generate := fun _ => Except.error "quota exceeded"

/-- A model that returns a turn with zero parts. -/
def genEmptyTurn : Generate := fun _ => Except.ok ⟨[]⟩

/-- A model whose turn carries one known tool call and one unknown one. -/
def genTwoCalls : Generate :=
  fun _ => Except.ok ⟨[Part.functionCall ⟨"execute_sql_query", [("query", "SELECT 1")]⟩,
    Part.functionCall ⟨"other_tool", []⟩]⟩

/-- A database returning one small row-set. -/
def dbOneRow : Db :=
  fun _ => Except.ok [[("n", Scalar.i 1)]]

/-- A database returning a row with a decimal and an integer column. -/
def dbPriced : Db :=
  fun _ => Except.ok [[("price", Scalar.d "19.99"), ("id", Scalar.i 7)]]

/-- A database that fails with a syntax error. -/
def dbSyntaxErr : Db := fun _ => Except.error "syntax error at or near \"SELEC\""

/-- A model that asks for the SQL tool with an ill-formed query. -/
def genBadSql : Generate :=
  fun _ => Except.ok ⟨[Part.functionCall ⟨"execute_sql_query", [("query", "SELEC")]⟩]⟩

/-- A tool call for `execute_sql_query` with no `query` argument. -/
def fcNoQuery : FunctionCall := ⟨"execute_sql_query", []⟩

/-- Whether the first character of the remaining input is a digit. -/
def headIsDigit : List Char → Bool
  | [] => false
  | c :: _ => c.isDigit

/-! ### Round-trip lemmas: the parser recovers what the serializer wrote -/

theorem mk_data (s : String) : String.mk s.data = s := rfl

theorem data_append (s t : String) : (s ++ t).data = s.data ++ t.data := rfl

theorem digitVal_digitChar {n : Nat} (h : n < 10) : digitVal (digitChar n) = n := by
  interval_cases n <;> rfl

theorem isDigit_digitChar {n : Nat} (h : n < 10) : (digitChar n).isDigit = true := by
  interval_cases n <;> decide

theorem natRevDigitsAux_ne_nil (fuel n : Nat) (h : n < fuel) :
    natRevDigitsAux fuel n ≠ [] := by
  cases fuel with
  | zero => omega
  | succ f =>
    simp only [natRevDigitsAux]
    split <;> simp

theorem natRevDigits_ne_nil (n : Nat) : natRevDigits n ≠ [] :=
  natRevDigitsAux_ne_nil (n + 1) n (by omega)

theorem mem_natRevDigitsAux (fuel : Nat) : ∀ n : Nat, n < fuel →
    ∀ c ∈ natRevDigitsAux fuel n, c.isDigit = true := by
  induction fuel with
  | zero => intro n h; omega
  | succ f ih =>
    intro n h c hc
    simp only [natRevDigitsAux] at hc
    by_cases h10 : n < 10
    · rw [if_pos h10] at hc
      simp only [List.mem_singleton] at hc
      subst hc
      exact isDigit_digitChar h10
    · rw [if_neg h10] at hc
      rcases List.mem_cons.mp hc with rfl | hc
      · exact isDigit_digitChar (Nat.mod_lt _ (by omega))
      · exact ih (n / 10) (by omega) c hc

theorem mem_natRevDigits (n : Nat) : ∀ c ∈ natRevDigits n, c.isDigit = true :=
  mem_natRevDigitsAux (n + 1) n (by omega)

theorem foldl_natRevDigitsAux (fuel : Nat) : ∀ n : Nat, n < fuel → ∀ acc : Nat,
    ((natRevDigitsAux fuel n).reverse).foldl (fun a c => a * 10 + digitVal c) acc
      = acc * 10 ^ (natRevDigitsAux fuel n).length + n := by
  induction fuel with
  | zero => intro n h; omega
  | succ f ih =>
    intro n h acc
    simp only [natRevDigitsAux]
    by_cases h10 : n < 10
    · rw [if_pos h10]
      simp [digitVal_digitChar h10]
    · rw [if_neg h10]
      rw [List.reverse_cons, List.foldl_append]
      rw [ih (n / 10) (by omega)]
      simp only [List.foldl_cons, List.foldl_nil, List.length_cons]
      rw [digitVal_digitChar (Nat.mod_lt _ (by omega)), pow_succ]
      have h2 : n / 10 * 10 + n % 10 = n := by omega
      calc (acc * 10 ^ (natRevDigitsAux f (n / 10)).length + n / 10) * 10 + n % 10
          = acc * 10 ^ (natRevDigitsAux f (n / 10)).length * 10 + (n / 10 * 10 + n % 10) := by
            ring
        _ = acc * (10 ^ (natRevDigitsAux f (n / 10)).length * 10) + n := by
            rw [h2, mul_assoc]

theorem foldl_natRevDigits (n : Nat) : ∀ acc : Nat,
    ((natRevDigits n).reverse).foldl (fun a c => a * 10 + digitVal c) acc
      = acc * 10 ^ (natRevDigits n).length + n :=
  fun acc => foldl_natRevDigitsAux (n + 1) n (by omega) acc

theorem parseDigitsAux_run (ds : List Char) : ∀ (rest : List Char) (acc : Nat),
    (∀ c ∈ ds, c.isDigit = true) →
    parseDigitsAux (ds ++ rest) acc
      = parseDigitsAux rest (ds.foldl (fun a c => a * 10 + digitVal c) acc) := by
  induction ds with
  | nil => intro rest acc _; rfl
  | cons c cs ih =>
    intro rest acc h
    have hc : c.isDigit = true := h c (by simp)
    simp only [List.cons_append, parseDigitsAux, hc, if_true, List.foldl_cons]
    exact ih rest _ (fun x hx => h x (by simp [hx]))

theorem parseDigitsAux_stop (rest : List Char) (acc : Nat) (h : headIsDigit rest = false) :
    parseDigitsAux rest acc = (acc, rest) := by
  cases rest with
  | nil => rfl
  | cons c cs =>
    simp only [headIsDigit] at h
    simp [parseDigitsAux, h]

theorem ne_of_isDigit {c : Char} (h : c.isDigit = true) :
    c ≠ '\"' ∧ c ≠ 'n' ∧ c ≠ '-' := by
  refine ⟨?_, ?_, ?_⟩ <;> rintro rfl <;> exact absurd h (by decide)

theorem renderNat_shape (m : Nat) :
    ∃ d ds, renderNat m = d :: ds ∧ d.isDigit = true ∧ (∀ c ∈ ds, c.isDigit = true) := by
  have hne : (natRevDigits m).reverse ≠ [] := by
    simp [natRevDigits_ne_nil m]
  obtain ⟨d, ds, hds⟩ := List.exists_cons_of_ne_nil hne
  refine ⟨d, ds, hds, ?_, ?_⟩
  · have : d ∈ (natRevDigits m).reverse := by rw [hds]; simp
    exact mem_natRevDigits m d (List.mem_reverse.mp this)
  · intro c hc
    have : c ∈ (natRevDigits m).reverse := by rw [hds]; simp [hc]
    exact mem_natRevDigits m c (List.mem_reverse.mp this)

theorem parseDigitsAux_renderNat (m : Nat) (rest : List Char)
    (h : headIsDigit rest = false) :
    parseDigitsAux (renderNat m ++ rest) 0 = (m, rest) := by
  have hdig : ∀ c ∈ renderNat m, c.isDigit = true := by
    intro c hc
    exact mem_natRevDigits m c (List.mem_reverse.mp hc)
  rw [renderNat] at hdig ⊢
  rw [parseDigitsAux_run _ rest 0 hdig, parseDigitsAux_stop rest _ h,
    foldl_natRevDigits m 0]
  simp

theorem parseNum_pos (m : Nat) (rest : List Char) (h : headIsDigit rest = false) :
    parseNum (renderNat m ++ rest) = some ((m : Int), rest) := by
  obtain ⟨d, ds, hds, hd, _⟩ := renderNat_shape m
  have hrun := parseDigitsAux_renderNat m rest h
  rw [hds] at hrun ⊢
  simp only [List.cons_append] at hrun ⊢
  obtain ⟨_, _, hdash⟩ := ne_of_isDigit hd
  rw [parseNum.eq_def]
  simp [hdash, hd, hrun]

theorem parseNum_neg (m : Nat) (rest : List Char) (h : headIsDigit rest = false) :
    parseNum ('-' :: (renderNat m ++ rest)) = some (-(m : Int), rest) := by
  obtain ⟨d, ds, hds, hd, _⟩ := renderNat_shape m
  have hrun := parseDigitsAux_renderNat m rest h
  rw [hds] at hrun ⊢
  simp only [List.cons_append] at hrun ⊢
  rw [parseNum.eq_def]
  simp [hd, hrun]

theorem parseNum_renderInt (n : Int) (rest : List Char) (h : headIsDigit rest = false) :
    parseNum (renderInt n ++ rest) = some (n, rest) := by
  by_cases hn : n < 0
  · rw [renderInt, if_pos hn, List.cons_append, parseNum_neg n.natAbs rest h]
    have hcast : -((n.natAbs : Int)) = n := by omega
    rw [hcast]
  · rw [renderInt, if_neg hn, parseNum_pos n.natAbs rest h]
    have hcast : ((n.natAbs : Int)) = n := by omega
    rw [hcast]

theorem parseLit_append (lit : List Char) : ∀ rest : List Char,
    parseLit lit (lit ++ rest) = some rest := by
  induction lit with
  | nil => intro rest; rfl
  | cons l ls ih => intro rest; simp [parseLit, ih]

theorem parseStringBody_escape (l : List Char) : ∀ rest : List Char,
    parseStringBody ((l.map escapeChar).flatten ++ '\"' :: rest) = some (l, rest) := by
  induction l with
  | nil =>
    intro rest
    simp only [List.map_nil, List.flatten_nil, List.nil_append]
    rw [parseStringBody.eq_def]
    simp
  | cons c cs ih =>
    intro rest
    by_cases h1 : c = '\"'
    · subst h1
      simp only [List.map_cons, List.flatten_cons, escapeChar, if_pos rfl, List.cons_append,
        List.nil_append]
      rw [parseStringBody.eq_def]
      simp [ih]
    · by_cases h2 : c = '\\'
      · subst h2
        simp only [List.map_cons, List.flatten_cons, escapeChar,
          if_neg (by decide : ¬('\\' : Char) = '\"'), if_pos rfl, List.cons_append,
          List.nil_append]
        rw [parseStringBody.eq_def]
        simp [ih]
      · simp only [List.map_cons, List.flatten_cons, escapeChar, if_neg h1, if_neg h2,
          List.cons_append, List.nil_append]
        rw [parseStringBody.eq_def]
        simp [h1, h2, ih]

theorem parseScalar_render (v : Scalar) (rest : List Char) (h : headIsDigit rest = false) :
    parseScalar (renderScalar v ++ rest) = some (stringifyScalar v, rest) := by
  cases v with
  | s t =>
    simp only [renderScalar, renderString, List.cons_append, List.append_assoc,
      List.singleton_append]
    rw [parseScalar.eq_def]
    simp [parseStringBody_escape, mk_data, stringifyScalar]
  | d t =>
    simp only [renderScalar, renderString, List.cons_append, List.append_assoc,
      List.singleton_append]
    rw [parseScalar.eq_def]
    simp [parseStringBody_escape, mk_data, stringifyScalar]
  | null =>
    simp only [renderScalar, List.cons_append, List.nil_append]
    rw [parseScalar.eq_def]
    simp [parseLit, stringifyScalar]
  | i n =>
    simp only [renderScalar, stringifyScalar]
    by_cases hn : n < 0
    · rw [renderInt, if_pos hn, List.cons_append]
      have hnum := parseNum_neg n.natAbs rest h
      have hcast : -((n.natAbs : Int)) = n := by omega
      rw [hcast] at hnum
      rw [parseScalar.eq_def]
      simp [hnum]
    · rw [renderInt, if_neg hn]
      obtain ⟨d, ds, hds, hd, _⟩ := renderNat_shape n.natAbs
      have hnum := parseNum_pos n.natAbs rest h
      have hcast : ((n.natAbs : Int)) = n := by omega
      rw [hcast] at hnum
      rw [hds] at hnum ⊢
      obtain ⟨hq, hnn, _⟩ := ne_of_isDigit hd
      simp only [List.cons_append] at hnum ⊢
      rw [parseScalar.eq_def]
      simp [hq, hnn, hnum]

theorem parsePair_render (k : String) (v : Scalar) (rest : List Char)
    (h : headIsDigit rest = false) :
    parsePair (renderPair (k, v) ++ rest) = some ((k, stringifyScalar v), rest) := by
  have hshape : renderPair (k, v) ++ rest
      = '\"' :: ((k.data.map escapeChar).flatten
          ++ '\"' :: ':' :: ' ' :: (renderScalar v ++ rest)) := by
    simp [renderPair, renderString]
  rw [hshape, parsePair.eq_def]
  simp [parseStringBody_escape, parseScalar_render v rest h, mk_data]

theorem headIsDigit_rowTail (fs : Row) (rest : List Char) :
    headIsDigit (renderRowTail fs ++ '\x7d' :: rest) = false := by
  cases fs <;> simp [renderRowTail, headIsDigit]

theorem parsePairsRest_render (fs : Row) : ∀ (fuel : Nat) (rest : List Char),
    fs.length ≤ fuel →
    parsePairsRest fuel (renderRowTail fs ++ '\x7d' :: rest)
      = some (stringifyRow fs, rest) := by
  induction fs with
  | nil =>
    intro fuel rest _
    simp only [renderRowTail, List.nil_append]
    rw [parsePairsRest.eq_def]
    simp [stringifyRow]
  | cons kv fs' ih =>
    intro fuel rest hlen
    obtain ⟨k, v⟩ := kv
    cases fuel with
    | zero => simp at hlen
    | succ f2 =>
      have hnd := headIsDigit_rowTail fs' rest
      have hshape : renderRowTail ((k, v) :: fs') ++ '\x7d' :: rest
          = ',' :: ' ' :: (renderPair (k, v) ++ (renderRowTail fs' ++ '\x7d' :: rest)) := by
        simp [renderRowTail]
      rw [hshape, parsePairsRest.eq_def]
      have hp := parsePair_render k v (renderRowTail fs' ++ '\x7d' :: rest) hnd
      have htail := ih f2 rest (by simp at hlen; omega)
      simp [hp, htail, stringifyRow]

theorem parseObj_render (r : Row) (fuel : Nat) (rest : List Char) (hlen : r.length ≤ fuel) :
    parseObj fuel (renderRow r ++ rest) = some (stringifyRow r, rest) := by
  cases r with
  | nil =>
    simp only [renderRow, renderRowBody, List.nil_append, List.cons_append]
    rw [parseObj.eq_def]
    simp [stringifyRow]
  | cons kv fs =>
    obtain ⟨k, v⟩ := kv
    have hnd := headIsDigit_rowTail fs rest
    have hp := parsePair_render k v (renderRowTail fs ++ '\x7d' :: rest) hnd
    have hpairshape : renderPair (k, v) ++ (renderRowTail fs ++ '\x7d' :: rest)
        = '\"' :: ((k.data.map escapeChar).flatten
            ++ '\"' :: ':' :: ' ' :: (renderScalar v ++ (renderRowTail fs ++ '\x7d' :: rest))) := by
      simp [renderPair, renderString]
    have hshape : renderRow ((k, v) :: fs) ++ rest
        = '\x7b' :: ('\"' :: ((k.data.map escapeChar).flatten
            ++ '\"' :: ':' :: ' ' :: (renderScalar v ++ (renderRowTail fs ++ '\x7d' :: rest)))) := by
      rw [← hpairshape]
      simp [renderRow, renderRowBody]
    rw [hpairshape] at hp
    rw [hshape, parseObj.eq_def]
    have hrest := parsePairsRest_render fs fuel rest (by simp at hlen; omega)
    simp [hp, hrest, stringifyRow]

theorem parseObjsRest_render (rs : List Row) : ∀ (fp fuel : Nat) (rest : List Char),
    rs.length ≤ fuel → (∀ r ∈ rs, r.length ≤ fp) →
    parseObjsRest fp fuel (renderRowsTail rs ++ ']' :: rest)
      = some (stringifyRows rs, rest) := by
  induction rs with
  | nil =>
    intro fp fuel rest _ _
    simp only [renderRowsTail, List.nil_append]
    rw [parseObjsRest.eq_def]
    simp [stringifyRows]
  | cons r rs' ih =>
    intro fp fuel rest hlen hfp
    cases fuel with
    | zero => simp at hlen
    | succ f2 =>
      have hshape : renderRowsTail (r :: rs') ++ ']' :: rest
          = ',' :: ' ' :: (renderRow r ++ (renderRowsTail rs' ++ ']' :: rest)) := by
        simp [renderRowsTail]
      rw [hshape, parseObjsRest.eq_def]
      have ho := parseObj_render r fp (renderRowsTail rs' ++ ']' :: rest) (hfp r (by simp))
      have htail := ih fp f2 rest (by simp at hlen; omega) (fun r' hr' => hfp r' (by simp [hr']))
      simp [ho, htail, stringifyRows]

theorem length_renderRowTail (fs : Row) : fs.length ≤ (renderRowTail fs).length := by
  induction fs with
  | nil => simp [renderRowTail]
  | cons kv fs' ih => simp [renderRowTail]; omega

theorem length_row_le_renderRow (r : Row) : r.length ≤ (renderRow r).length := by
  cases r with
  | nil => simp [renderRow]
  | cons kv fs =>
    have := length_renderRowTail fs
    simp [renderRow, renderRowBody]
    omega

theorem length_renderRowsTail (rs : List Row) : rs.length ≤ (renderRowsTail rs).length := by
  induction rs with
  | nil => simp [renderRowsTail]
  | cons r rs' ih => simp [renderRowsTail]; omega

theorem mem_le_renderRowsTail (rs : List Row) : ∀ r ∈ rs, r.length ≤ (renderRowsTail rs).length := by
  induction rs with
  | nil => intro r hr; simp at hr
  | cons r0 rs' ih =>
    intro r hr
    rcases List.mem_cons.mp hr with rfl | hr
    · have := length_row_le_renderRow r
      simp [renderRowsTail]
      omega
    · have := ih r hr
      simp [renderRowsTail]
      omega

theorem length_rows_le_renderRows (rows : List Row) :
    rows.length ≤ (renderRows rows).length := by
  cases rows with
  | nil => simp [renderRows, renderRowsBody]
  | cons r rs =>
    have := length_renderRowsTail rs
    simp [renderRows, renderRowsBody]
    omega

theorem mem_row_le_renderRows (rows : List Row) :
    ∀ r ∈ rows, r.length ≤ (renderRows rows).length := by
  intro r hr
  cases rows with
  | nil => simp at hr
  | cons r0 rs =>
    rcases List.mem_cons.mp hr with rfl | hr
    · have := length_row_le_renderRow r
      simp [renderRows, renderRowsBody]
      omega
    · have := mem_le_renderRowsTail rs r hr
      simp [renderRows, renderRowsBody]
      omega

/-- The round trip at the heart of the dispatch branch: `json.loads` applied to
`json.dumps(rows, cls=DecimalEncoder)` succeeds and returns the row-set with
every `Decimal` value turned into the string `str(Decimal)`. -/
theorem json_loads_renderRows (rows : List Row) :
    json_loads_rows (String.mk (renderRows rows)) = some (stringifyRows rows) := by
  cases rows with
  | nil => rfl
  | cons r rs =>
    have hn : r.length ≤ (renderRows (r :: rs)).length :=
      mem_row_le_renderRows _ r (by simp)
    have hn2 : rs.length ≤ (renderRows (r :: rs)).length := by
      have h1 := length_rows_le_renderRows (r :: rs)
      simp at h1
      omega
    have hfp : ∀ r' ∈ rs, r'.length ≤ (renderRows (r :: rs)).length :=
      fun r' hr' => mem_row_le_renderRows _ r' (by simp [hr'])
    have ho := parseObj_render r (renderRows (r :: rs)).length
      (renderRowsTail rs ++ ']' :: ([] : List Char)) hn
    have hrest := parseObjsRest_render rs (renderRows (r :: rs)).length
      (renderRows (r :: rs)).length ([] : List Char) hn2 hfp
    have hshape : renderRows (r :: rs)
        = '[' :: (renderRow r ++ (renderRowsTail rs ++ ']' :: ([] : List Char))) := by
      simp [renderRows, renderRowsBody]
    have hrowshape : renderRow r ++ (renderRowsTail rs ++ ']' :: ([] : List Char))
        = '\x7b' :: (renderRowBody r ++ '\x7d'
            :: (renderRowsTail rs ++ ']' :: ([] : List Char))) := by
      simp [renderRow]
    rw [json_loads_rows.eq_def]
    rw [show (String.mk (renderRows (r :: rs))).data = renderRows (r :: rs) from rfl]
    set n := (renderRows (r :: rs)).length with hn_def
    rw [hrowshape] at ho
    rw [hshape, hrowshape]
    simp [ho, hrest, stringifyRows]

/-- An executor error string is never valid JSON: `json.loads` fails on it and
the dispatch falls back to the raw text. -/
theorem json_loads_error_string (e : String) :
    json_loads_rows ("Error executing query: " ++ e) = none := by
  have hdata : ("Error executing query: " ++ e).data
      = 'E' :: ("rror executing query: ".data ++ e.data) := by
    rw [data_append]
    rfl
  rw [json_loads_rows.eq_def, hdata]
  simp

theorem parseOrRaw_error (e : String) :
    parseOrRaw ("Error executing query: " ++ e)
      = RespData.resultText ("Error executing query: " ++ e) := by
  rw [parseOrRaw, json_loads_error_string]

theorem parseOrRaw_rows (rows : List Row) :
    parseOrRaw (String.mk (renderRows rows)) = RespData.resultRows (stringifyRows rows) := by
  rw [parseOrRaw, json_loads_renderRows]

/-! ### Lemmas about the dispatch and the loop -/

theorem handlePartTr_functionCall (db : Db) (fc : FunctionCall) :
    handlePartTr db (Part.functionCall fc) = ([respOf db fc], queriesOf fc) := by
  by_cases h : fc.name = "execute_sql_query" <;>
    simp [handlePartTr, respOf, queriesOf, h]

theorem handlePartTr_skip (db : Db) (p : Part) (h : Part.isFunctionCall p = false) :
    handlePartTr db p = ([], []) := by
  cases p with
  | text t => rfl
  | functionCall fc => simp [Part.isFunctionCall] at h
  | functionResponse name r => rfl

theorem processFunctionCallsTr_eq (db : Db) (ps : List Part) :
    processFunctionCallsTr db ps
      = ((fcParts ps).map (respOf db), ((fcParts ps).map queriesOf).flatten) := by
  induction ps with
  | nil => rfl
  | cons p rest ih =>
    cases p with
    | functionCall fc =>
      simp [processFunctionCallsTr, handlePartTr_functionCall, ih, fcParts,
        partFunctionCall]
    | text t =>
      simp [processFunctionCallsTr, handlePartTr, ih, fcParts, partFunctionCall]
    | functionResponse name r =>
      simp [processFunctionCallsTr, handlePartTr, ih, fcParts, partFunctionCall]

theorem countModelCalls_append (a b : List Event) :
    countModelCalls (a ++ b) = countModelCalls a + countModelCalls b := by
  induction a with
  | nil => simp [countModelCalls]
  | cons e es ih =>
    cases e with
    | modelCall h => simp [countModelCalls, ih]; omega
    | toolExec q => simp [countModelCalls, ih]

theorem countModelCalls_toolExecs (qs : List String) :
    countModelCalls (qs.map Event.toolExec) = 0 := by
  induction qs with
  | nil => rfl
  | cons q qs ih => simp [countModelCalls, ih]

theorem agentLoopTr_error (gen : Generate) (db : Db) (fuel : Nat)
    (history : List HistoryItem) (e : String) (hg : gen history = Except.error e) :
    agentLoopTr gen db (fuel + 1) history
      = (AgentResult.internalError e, [Event.modelCall history]) := by
  simp [agentLoopTr, hg]

theorem agentLoopTr_final (gen : Generate) (db : Db) (fuel : Nat)
    (history : List HistoryItem) (c : Content) (hg : gen history = Except.ok c)
    (hf : isFinalResponse c = true) :
    agentLoopTr gen db (fuel + 1) history
      = (AgentResult.success (Content.text c), [Event.modelCall history]) := by
  simp [agentLoopTr, hg, hf]

theorem agentLoopTr_cont (gen : Generate) (db : Db) (fuel : Nat)
    (history : List HistoryItem) (c : Content) (hg : gen history = Except.ok c)
    (hf : isFinalResponse c = false) :
    agentLoopTr gen db (fuel + 1) history
      = ((agentLoopTr gen db fuel ((history ++ [HistoryItem.content c])
            ++ (processFunctionCallsTr db c.parts).1.map HistoryItem.part)).1,
         Event.modelCall history
           :: ((processFunctionCallsTr db c.parts).2.map Event.toolExec
             ++ (agentLoopTr gen db fuel ((history ++ [HistoryItem.content c])
                  ++ (processFunctionCallsTr db c.parts).1.map HistoryItem.part)).2)) := by
  simp [agentLoopTr, hg, hf]

/-! ### The claims -/

/-- Claim C1, as stated, is false on the code: the loop in `main.py` is
`while True` with no turn bound, no `LIMIT_REACHED` state and no sentinel
response.  Counterexample: with a model that answers every invocation with a
tool call, a run on the non-empty prompt `list all products` performs 11 model
invocations and is still looping — it does not stop at 10 iterations and no
sentinel is returned. -/
theorem claim1_counterexample :
    countModelCalls (agentTr genToolLoop dbEmpty 11 (some "list all products")).2 = 11
    ∧ (agentTr genToolLoop dbEmpty 11 (some "list all products")).1.isLooping = true := by
  constructor
  · rfl
  · rfl

/-- Claim C1 (amended): the orchestration loop has no iteration bound.  For any
model capability that always returns a turn whose first part is a tool call
(and never raises), the loop is still running after `n` iterations for every
`n`, having performed exactly `n` model invocations; in particular it performs
more than 10, and there is no `LIMIT_REACHED` transition or sentinel
response — the loop only ever ends through a final (non-tool-call-first)
response or a raised error. -/
theorem claim1_amended (gen : Generate) (db : Db)
    (hgen : ∀ h, ∃ c, gen h = Except.ok c ∧ isFinalResponse c = false) :
    ∀ (n : Nat) (history : List HistoryItem),
      (agentLoopTr gen db n history).1.isLooping = true
      ∧ countModelCalls (agentLoopTr gen db n history).2 = n := by
  intro n
  induction n with
  | zero => intro history; exact ⟨rfl, rfl⟩
  | succ k ih =>
    intro history
    obtain ⟨c, hg, hf⟩ := hgen history
    rw [agentLoopTr_cont gen db k history c hg hf]
    refine ⟨(ih _).1, ?_⟩
    simp [countModelCalls, countModelCalls_append, countModelCalls_toolExecs, (ih _).2]

/-- Witness for the amended claim C1, at a concrete always-tool-calling model:
after 11 iterations the loop is still running and has called the model 11
times. -/
theorem claim1_amended_witness :
    (agentLoopTr genToolLoop dbEmpty 11 []).1.isLooping = true
    ∧ countModelCalls (agentLoopTr genToolLoop dbEmpty 11 []).2 = 11 :=
  claim1_amended genToolLoop dbEmpty
    (fun _ => ⟨⟨[Part.functionCall ⟨"lookup_tool", []⟩]⟩, rfl, rfl⟩) 11 []

/-- Claim C2: whenever the model returns a turn whose first part is not a tool
call, the loop returns in that same iteration (whatever iteration budget
remains) with the success outcome carrying the turn text, after exactly the
one model invocation and with no tool dispatched — trailing tool-call parts
after a leading non-tool-call part are ignored. -/
theorem claim2 (gen : Generate) (db : Db) (fuel : Nat) (history : List HistoryItem)
    (c : Content) (p : Part) (ps : List Part) (hg : gen history = Except.ok c)
    (hparts : c.parts = p :: ps) (hp : Part.isFunctionCall p = false) :
    agentLoopTr gen db (fuel + 1) history
      = (AgentResult.success (Content.text c), [Event.modelCall history]) := by
  apply agentLoopTr_final gen db fuel history c hg
  simp [isFinalResponse, hparts, hp]

/-- Witness for C2: a turn with leading text and a trailing `execute_sql_query`
call ends the loop at once with the text, and the trace shows no tool
execution. -/
theorem claim2_witness :
    agentLoopTr genTextFirst dbEmpty 5 []
      = (AgentResult.success "hello", [Event.modelCall []]) := by
  have h := claim2 genTextFirst dbEmpty 4 []
    ⟨[Part.text "hello",
      Part.functionCall ⟨"execute_sql_query", [("query", "SELECT 1")]⟩]⟩
    (Part.text "hello")
    [Part.functionCall ⟨"execute_sql_query", [("query", "SELECT 1")]⟩] rfl rfl rfl
  exact h.trans (by decide)

/-- Claim C3: when the first part of the turn is a tool call, every tool call of the
turn is dispatched, in order; the collected function-response parts are in the
same order as their originating calls; and before the next model invocation
they are appended, as one contiguous block, after the model turn in the
history — the next invocation receives exactly that extended history. -/
theorem claim3 (gen : Generate) (db : Db) (fuel : Nat) (history : List HistoryItem)
    (c : Content) (hg : gen history = Except.ok c) (hf : isFinalResponse c = false) :
    (processFunctionCallsTr db c.parts).1 = (fcParts c.parts).map (respOf db)
    ∧ (processFunctionCallsTr db c.parts).2 = ((fcParts c.parts).map queriesOf).flatten
    ∧ agentLoopTr gen db (fuel + 1) history
        = ((agentLoopTr gen db fuel ((history ++ [HistoryItem.content c])
              ++ ((fcParts c.parts).map (respOf db)).map HistoryItem.part)).1,
           Event.modelCall history
             :: ((((fcParts c.parts).map queriesOf).flatten).map Event.toolExec
               ++ (agentLoopTr gen db fuel ((history ++ [HistoryItem.content c])
                    ++ ((fcParts c.parts).map (respOf db)).map HistoryItem.part)).2)) := by
  have he := processFunctionCallsTr_eq db c.parts
  refine ⟨by rw [he], by rw [he], ?_⟩
  have hc := agentLoopTr_cont gen db fuel history c hg hf
  rw [hc, he]

/-- Witness for C3: a turn with a known call followed by an unknown one yields
the two response parts in the same order, and only the known call reaches the
executor. -/
theorem claim3_witness :
    (processFunctionCallsTr dbOneRow
        [Part.functionCall ⟨"execute_sql_query", [("query", "SELECT 1")]⟩,
         Part.functionCall ⟨"other_tool", []⟩]).1
      = [Part.functionResponse "execute_sql_query"
           (RespData.resultRows [[("n", Scalar.i 1)]]),
         Part.functionResponse "other_tool"
           (RespData.errorMsg "Tool \x27other_tool\x27 not found.")]
    ∧ (processFunctionCallsTr dbOneRow
        [Part.functionCall ⟨"execute_sql_query", [("query", "SELECT 1")]⟩,
         Part.functionCall ⟨"other_tool", []⟩]).2
      = ["SELECT 1"] := by
  have h := claim3 genTwoCalls dbOneRow 0 []
    ⟨[Part.functionCall ⟨"execute_sql_query", [("query", "SELECT 1")]⟩,
      Part.functionCall ⟨"other_tool", []⟩]⟩ rfl rfl
  exact ⟨h.1.trans (by decide), h.2.1.trans (by decide)⟩

/-- Claim C4: a tool call whose name is not `execute_sql_query` produces
exactly one function-response part carrying the structured error
`(error: Tool <name> not found.)`, executes no query (empty query trace) and
does not depend on the database at all. -/
theorem claim4 (db : Db) (fc : FunctionCall) (h : fc.name ≠ "execute_sql_query") :
    handlePartTr db (Part.functionCall fc)
      = ([Part.functionResponse fc.name
            (RespData.errorMsg ("Tool \x27" ++ fc.name ++ "\x27 not found."))], []) := by
  simp [handlePartTr, h]

/-- Witness for C4 at the unknown tool name `lookup_tool`. -/
theorem claim4_witness :
    handlePartTr dbEmpty (Part.functionCall ⟨"lookup_tool", []⟩)
      = ([Part.functionResponse "lookup_tool"
            (RespData.errorMsg "Tool \x27lookup_tool\x27 not found.")], []) := by
  have h := claim4 dbEmpty ⟨"lookup_tool", []⟩ (by decide)
  exact h.trans (by decide)

/-- Claim C5: `execute_sql_query` never lets a driver failure escape — on any
driver error it returns the string `Error executing query: ` followed by the
driver message; the dispatch folds that text into an ordinary function-response
part (the raw text, since an error string is never valid JSON), and the loop
then continues with the next model invocation instead of failing. -/
theorem claim5 (gen : Generate) (db : Db) (fuel : Nat) (history : List HistoryItem)
    (c : Content) (fc : FunctionCall) (ps : List Part) (e : String)
    (hg : gen history = Except.ok c)
    (hparts : c.parts = Part.functionCall fc :: ps)
    (hname : fc.name = "execute_sql_query")
    (hdb : db (queryArg fc) = Except.error e) :
    execute_sql_query db (queryArg fc) = "Error executing query: " ++ e
    ∧ handlePartTr db (Part.functionCall fc)
        = ([Part.functionResponse fc.name
              (RespData.resultText ("Error executing query: " ++ e))], [queryArg fc])
    ∧ (agentLoopTr gen db (fuel + 1) history).1
        = (agentLoopTr gen db fuel ((history ++ [HistoryItem.content c])
            ++ (processFunctionCallsTr db c.parts).1.map HistoryItem.part)).1 := by
  have hexec : execute_sql_query db (queryArg fc) = "Error executing query: " ++ e := by
    simp [execute_sql_query, hdb]
  refine ⟨hexec, ?_, ?_⟩
  · simp [handlePartTr, hname, hexec, parseOrRaw_error]
  · have hf : isFinalResponse c = false := by
      simp [isFinalResponse, hparts, Part.isFunctionCall]
    rw [agentLoopTr_cont gen db fuel history c hg hf]

/-- Witness for C5: an ill-formed query makes the executor return the error
text, which lands verbatim in the function-response part with the query still
traced. -/
theorem claim5_witness :
    execute_sql_query dbSyntaxErr "SELEC"
      = "Error executing query: syntax error at or near \"SELEC\""
    ∧ handlePartTr dbSyntaxErr
        (Part.functionCall ⟨"execute_sql_query", [("query", "SELEC")]⟩)
      = ([Part.functionResponse "execute_sql_query"
            (RespData.resultText "Error executing query: syntax error at or near \"SELEC\"")],
         ["SELEC"]) := by
  have h := claim5 genBadSql dbSyntaxErr 0 []
    ⟨[Part.functionCall ⟨"execute_sql_query", [("query", "SELEC")]⟩]⟩
    ⟨"execute_sql_query", [("query", "SELEC")]⟩ [] "syntax error at or near \"SELEC\""
    rfl rfl rfl rfl
  exact ⟨h.1.trans (by decide), h.2.1.trans (by decide)⟩

/-- Claim C6: a missing or empty prompt makes the endpoint answer with status
400 and body `(error: Prompt must not be empty.)`, with an empty event trace —
no model invocation happens and the loop is never entered. -/
theorem claim6 (gen : Generate) (db : Db) (fuel : Nat) (prompt : Option String)
    (h : prompt = none ∨ prompt = some "") :
    agentTr gen db fuel prompt = (AgentResult.emptyPrompt, [])
    ∧ httpResponse AgentResult.emptyPrompt
        = some (400, [("error", "Prompt must not be empty.")]) := by
  refine ⟨?_, rfl⟩
  rcases h with rfl | rfl
  · rfl
  · simp [agentTr]

/-- Witness for C6 at the empty prompt. -/
theorem claim6_witness :
    agentTr genToolLoop dbEmpty 5 (some "") = (AgentResult.emptyPrompt, [])
    ∧ httpResponse AgentResult.emptyPrompt
        = some (400, [("error", "Prompt must not be empty.")]) :=
  claim6 genToolLoop dbEmpty 5 (some "") (Or.inr rfl)

/-- Claim C7: if the model invocation itself raises, the loop stops right
there: no retry (the failing call is the only event of that step), and the
outcome is the internal-error result which the boundary handler turns into a
500 response carrying the message. -/
theorem claim7 (gen : Generate) (db : Db) (fuel : Nat) (history : List HistoryItem)
    (e : String) (hg : gen history = Except.error e) :
    agentLoopTr gen db (fuel + 1) history
      = (AgentResult.internalError e, [Event.modelCall history])
    ∧ httpResponse (AgentResult.internalError e)
        = some (500, [("error", "An internal error occurred. " ++ e)]) :=
  ⟨agentLoopTr_error gen db fuel history e hg, rfl⟩

/-- Witness for C7 at a model that raises `quota exceeded`. -/
theorem claim7_witness :
    agentLoopTr genRaise dbEmpty 3 []
      = (AgentResult.internalError "quota exceeded", [Event.modelCall []])
    ∧ httpResponse (AgentResult.internalError "quota exceeded")
        = some (500, [("error", "An internal error occurred. quota exceeded")]) := by
  have h := claim7 genRaise dbEmpty 2 [] "quota exceeded" rfl
  exact ⟨h.1, h.2.trans (by decide)⟩

/-- Claim C8: on a successful query the executor returns exactly the
`DecimalEncoder` serialization of the row-set — an array of one object per row
mapping column name to value — and parsing it back yields the row-set with
every decimal carried as a string with its exact original text: a decimal
renders as a quoted JSON string and round-trips to the plain string with the
same characters. -/
theorem claim8 (db : Db) (q : String) (rows : List Row) (h : db q = Except.ok rows) :
    execute_sql_query db q = String.mk (renderRows rows)
    ∧ json_loads_rows (execute_sql_query db q) = some (stringifyRows rows)
    ∧ (∀ v, renderScalar (Scalar.d v) = renderString v)
    ∧ (∀ v, stringifyScalar (Scalar.d v) = Scalar.s v) := by
  have hexec : execute_sql_query db q = String.mk (renderRows rows) := by
    simp [execute_sql_query, h]
  exact ⟨hexec, by rw [hexec, json_loads_renderRows], fun v => rfl, fun v => rfl⟩

/-- Witness for C8: a row with a `DECIMAL` price and an `INT` id serializes
with the price as the JSON string `"19.99"` and parses back with its exact
text. -/
theorem claim8_witness :
    execute_sql_query dbPriced "SELECT * FROM products"
      = "[\x7b\"price\": \"19.99\", \"id\": 7\x7d]"
    ∧ json_loads_rows (execute_sql_query dbPriced "SELECT * FROM products")
        = some [[("price", Scalar.s "19.99"), ("id", Scalar.i 7)]] := by
  have h := claim8 dbPriced "SELECT * FROM products"
    [[("price", Scalar.d "19.99"), ("id", Scalar.i 7)]] rfl
  exact ⟨h.1.trans (by decide), h.2.1.trans (by decide)⟩

/-- Claim C9: a tool call named `execute_sql_query` whose `query` argument is
absent gets the empty string as its query; the executor is invoked with that
empty string (it appears in the query trace), and the response part carries
either the parsed row-set (when the database answers) or the raw error text
(when it fails). -/
theorem claim9 (db : Db) (fc : FunctionCall) (hname : fc.name = "execute_sql_query")
    (hq : fc.args.lookup "query" = none) :
    queryArg fc = ""
    ∧ (∀ e, db "" = Except.error e →
        handlePartTr db (Part.functionCall fc)
          = ([Part.functionResponse fc.name
                (RespData.resultText ("Error executing query: " ++ e))], [""]))
    ∧ (∀ rows, db "" = Except.ok rows →
        handlePartTr db (Part.functionCall fc)
          = ([Part.functionResponse fc.name
                (RespData.resultRows (stringifyRows rows))], [""])) := by
  have hqa : queryArg fc = "" := by simp [queryArg, hq]
  refine ⟨hqa, ?_, ?_⟩
  · intro e hdb
    have hexec : execute_sql_query db "" = "Error executing query: " ++ e := by
      simp [execute_sql_query, hdb]
    simp [handlePartTr, hname, hqa, hexec, parseOrRaw_error]
  · intro rows hdb
    have hexec : execute_sql_query db "" = String.mk (renderRows rows) := by
      simp [execute_sql_query, hdb]
    simp [handlePartTr, hname, hqa, hexec, parseOrRaw_rows]

/-- Witness for C9: with no `query` argument the executor is called on `""`;
with a database that answers one row the response part carries that parsed
row. -/
theorem claim9_witness :
    queryArg fcNoQuery = ""
    ∧ handlePartTr dbOneRow (Part.functionCall fcNoQuery)
        = ([Part.functionResponse "execute_sql_query"
              (RespData.resultRows [[("n", Scalar.i 1)]])], [""]) := by
  have h := claim9 dbOneRow fcNoQuery rfl rfl
  exact ⟨h.1, (h.2.2 [[("n", Scalar.i 1)]] rfl).trans (by decide)⟩

/-- Claim C10: a model turn with zero parts is classified as final by the
`not candidate.content.parts` half of the check: the loop takes the return
branch in that same iteration — no dispatch, no further looping — and the
turn text is the empty string. -/
theorem claim10 (gen : Generate) (db : Db) (fuel : Nat) (history : List HistoryItem)
    (c : Content) (hg : gen history = Except.ok c) (hc : c.parts = []) :
    agentLoopTr gen db (fuel + 1) history
      = (AgentResult.success (Content.text c), [Event.modelCall history])
    ∧ Content.text c = "" := by
  constructor
  · exact agentLoopTr_final gen db fuel history c hg (by simp [isFinalResponse, hc])
  · simp [Content.text, hc]

/-- Witness for C10 at a model returning an empty turn. -/
theorem claim10_witness :
    agentLoopTr genEmptyTurn dbEmpty 7 []
      = (AgentResult.success "", [Event.modelCall []]) := by
  have h := claim10 genEmptyTurn dbEmpty 6 [] ⟨[]⟩ rfl rfl
  exact h.1.trans (by decide)

end SqlAgent
